import Mathlib

/-
  Shallow embedding of the core of serverless-offline-localstack-sqs:
  the SQS client wrapper, the message poller (delivery engine), the lambda
  invoker and the queue manager, translated from src/sqs/client.ts,
  src/lambda/invoker.ts and src/config/defaults.ts.
-/

namespace SOLS

/-! ## JavaScript-style helpers

`orElseNat` and `orElseStr` model the JS `a || b` idiom, where `undefined`,
`0` and the empty string are falsy. `jsParseInt` models `parseInt(s, 10)`
restricted to the values that occur here: it parses the maximal leading
run of decimal digits and yields `none` for `NaN`. -/

def orElseNat : Option Nat → Nat → Nat
  | none, d => d
  | some 0, d => d
  | some (n + 1), _ => n + 1

def orElseStr : Option String → String → String
  | none, d => d
  | some s, d => if s = "" then d else s

def jsParseInt (s : String) : Option Nat :=
  let ds := s.data.takeWhile Char.isDigit
  if ds = [] then none
  else some (ds.foldl (fun n c => n * 10 + (c.toNat - 48)) 0)

def natOptRender : Option Nat → String
  | none => "NaN"
  | some n => toString n

/-! ## Configuration (src/config/defaults.ts) -/

structure DlqConfig where
  enabled : Bool
  maxReceiveCount : Option Nat
  queueName : Option String
  deriving DecidableEq, Repr

structure QueueConfig where
  queueName : String
  handler : String
  enabled : Option Bool
  batchSize : Option Nat
  maxConcurrentPolls : Option Nat
  visibilityTimeout : Option Nat
  waitTimeSeconds : Option Nat
  dlq : Option DlqConfig
  deriving DecidableEq, Repr

/-- Only the `PluginConfig` fields the delivery engine reads. -/
structure PluginConfig where
  pollInterval : Nat
  maxConcurrentPolls : Nat
  visibilityTimeout : Nat
  waitTimeSeconds : Nat
  maxReceiveCount : Nat
  deadLetterQueueSuffix : String
  lambdaTimeout : Nat
  deriving DecidableEq, Repr

/-- Defaults from `defaultConfig` in src/config/defaults.ts. -/
def defaultPluginConfig : PluginConfig :=
  { pollInterval := 1000
    maxConcurrentPolls := 3
    visibilityTimeout := 30
    waitTimeSeconds := 20
    maxReceiveCount := 3
    deadLetterQueueSuffix := "-dlq"
    lambdaTimeout := 30000 }

/-! ## Messages and queue handles -/

structure QueueInfo where
  queueUrl : String
  queueName : String
  deriving DecidableEq, Repr

/-- An SQS `Message` as the poller reads it: id, receipt handle, body and the
optional `ApproximateReceiveCount` attribute (a decimal string). -/
structure Message where
  messageId : String
  receiptHandle : String
  body : String
  approximateReceiveCount : Option String
  deriving DecidableEq, Repr

/-- `parseInt(message.Attributes?.ApproximateReceiveCount || '1', 10)`:
a missing or empty attribute falls back to the string `'1'`; a
non-numeric attribute parses to `NaN`, modelled as `none`. -/
def receiveCountOf (m : Message) : Option Nat :=
  match m.approximateReceiveCount with
  | none => some 1
  | some s => if s = "" then some 1 else jsParseInt s

/-- `receiveCount >= maxReceiveCount` under JS comparison: any comparison
with `NaN` is false. -/
def atOrAboveThreshold (rc : Option Nat) (maxRC : Nat) : Bool :=
  match rc with
  | some n => decide (maxRC ≤ n)
  | none => false

/-- `queueConfig.dlq?.maxReceiveCount || this.config.maxReceiveCount`. -/
def effectiveMaxReceiveCount (qc : QueueConfig) (cfg : PluginConfig) : Nat :=
  orElseNat (qc.dlq.bind (·.maxReceiveCount)) cfg.maxReceiveCount

/-- `queueConfig.dlq?.enabled` coerced to a boolean. -/
def dlqEnabled (qc : QueueConfig) : Bool :=
  (qc.dlq.map (·.enabled)).getD false

/-- `queueConfig.dlq.queueName || queueName + deadLetterQueueSuffix`. -/
def resolvedDlqName (cfg : PluginConfig) (qc : QueueConfig) : String :=
  orElseStr (qc.dlq.bind (·.queueName)) (qc.queueName ++ cfg.deadLetterQueueSuffix)

/-! ## Action traces

Each SQS client call or log statement the poller performs is recorded as
one `Action`, in program order. `DlqBody` is the envelope
`JSON.stringify`-ed into the dead-letter message body in
`handleMessageFailure`. -/

structure DlqBody where
  originalMessage : Message
  failureReason : String
  failureTime : String
  queueName : String
  handler : String
  deriving DecidableEq, Repr

inductive Action where
  | sendMessage (queueUrl : String) (body : DlqBody)
  | deleteMessage (queueUrl : String) (receiptHandle : String)
  | logWarn (msg : String)
  | logError (msg : String)
  | logInfo (msg : String)
  | logDebug (msg : String)
  deriving DecidableEq, Repr

/-- The transport calls (send/delete) of a trace, log statements dropped. -/
def Action.isTransport : Action → Bool
  | .sendMessage _ _ => true
  | .deleteMessage _ _ => true
  | _ => false

/-- `error?.message || 'Handler execution failed'`. -/
def failureReasonOf (err : Option String) : String :=
  orElseStr err "Handler execution failed"

/-! ## MessagePoller.handleMessageFailure (src/sqs/client.ts:376-416)

The DLQ transport calls (`getQueueInfo`, `sendMessage`, `deleteMessage`)
sit in a try/catch whose catch only logs; `env` maps a queue name to the
URL `getQueueInfo` resolves for it, and the model takes the
transport-success path of that inner block (claims C1/C3 are about which
calls are issued). `now` is `new Date().toISOString()`. -/

def handleMessageFailure (cfg : PluginConfig) (qc : QueueConfig) (qi : QueueInfo)
    (env : String → String) (now : String) (m : Message) (err : Option String) :
    List Action :=
  let rc := receiveCountOf m
  let maxRC := effectiveMaxReceiveCount qc cfg
  let warnA := Action.logWarn
    ("Message " ++ m.messageId ++ " failed processing (attempt " ++
      natOptRender rc ++ "/" ++ toString maxRC ++ "): " ++ orElseStr err "Unknown error")
  if atOrAboveThreshold rc maxRC && dlqEnabled qc then
    let dlqName := resolvedDlqName cfg qc
    let dlqUrl := env dlqName
    let dlqBody : DlqBody :=
      { originalMessage := m
        failureReason := failureReasonOf err
        failureTime := now
        queueName := qc.queueName
        handler := qc.handler }
    [warnA,
     Action.sendMessage dlqUrl dlqBody,
     Action.deleteMessage qi.queueUrl m.receiptHandle,
     Action.logInfo ("Moved message " ++ m.messageId ++ " to DLQ: " ++ dlqName)]
  else
    [warnA]

/-! ## LambdaInvoker results (src/lambda/invoker.ts) -/

structure HandlerResult where
  success : Bool
  error : Option String
  result : Option String
  deriving DecidableEq, Repr

/-! ## MessagePoller.processMessage (src/sqs/client.ts:338-374)

`hr` is the `HandlerResult` returned by `invokeHandler` (which never
throws), `deleteOk` says whether the source-queue `deleteMessage` call on
the success path succeeds, and `delErr` is the message of the error it
rethrows when it fails. That rethrown error is caught by the outer catch,
which logs it and calls `handleMessageFailure`. -/

def processMessage (cfg : PluginConfig) (qc : QueueConfig) (qi : QueueInfo)
    (env : String → String) (now : String) (m : Message)
    (hr : HandlerResult) (deleteOk : Bool) (delErr : String) : List Action :=
  if hr.success then
    if deleteOk then
      [Action.deleteMessage qi.queueUrl m.receiptHandle,
       Action.logDebug ("Successfully processed message " ++ m.messageId ++
         " from queue: " ++ qc.queueName)]
    else
      Action.deleteMessage qi.queueUrl m.receiptHandle ::
      Action.logError ("Failed to delete message: " ++ delErr) ::
      Action.logError ("Unexpected error processing message " ++ m.messageId ++
        ": " ++ delErr) ::
      handleMessageFailure cfg qc qi env now m (some delErr)
  else
    handleMessageFailure cfg qc qi env now m hr.error

/-! ## MessagePoller.processMessages (src/sqs/client.ts:321-336)

The loop `for (let i = 0; i < messages.length; i += maxConcurrency)`
slices the batch into sub-batches of at most `maxConcurrency` messages.
`chunksGo` carries the list length as fuel: with `c = 0` the JS loop
never advances, which the exhausted-fuel branch models by producing
nothing further. -/

def chunksGo {α : Type} (c : Nat) : Nat → List α → List (List α)
  | _, [] => []
  | 0, _ :: _ => []
  | fuel + 1, m :: ms => ((m :: ms).take c) :: chunksGo c fuel ((m :: ms).drop c)

def chunkMessages {α : Type} (c : Nat) (ms : List α) : List (List α) :=
  chunksGo c ms.length ms

/-- `maxConcurrency = queueConfig.maxConcurrentPolls || config.maxConcurrentPolls`. -/
def effectiveMaxConcurrency (qc : QueueConfig) (cfg : PluginConfig) : Nat :=
  orElseNat qc.maxConcurrentPolls cfg.maxConcurrentPolls

/-- The trace of one `processMessages` call, as a list of per-sub-batch
traces: sub-batch `k + 1` runs only after every promise of sub-batch `k`
has settled (`await Promise.all`), so the outer list order is the
execution order. `hrOf`, `delOf` and `delErrOf` give each message its
handler outcome and source-delete outcome. -/
def processMessages (cfg : PluginConfig) (qc : QueueConfig) (qi : QueueInfo)
    (env : String → String) (now : String)
    (hrOf : Message → HandlerResult) (delOf : Message → Bool)
    (delErrOf : Message → String) (ms : List Message) : List (List Action) :=
  (chunkMessages (effectiveMaxConcurrency qc cfg) ms).map
    (fun batch =>
      (batch.map (fun m =>
        processMessage cfg qc qi env now m (hrOf m) (delOf m) (delErrOf m))).flatten)

/-! ## PollerState and MessagePoller.pollQueue (src/sqs/client.ts:211-319) -/

structure PollerState where
  isPolling : Bool
  messageCount : Nat
  errorCount : Nat
  lastPollTime : Option Nat
  lastError : Option String
  deriving DecidableEq, Repr

/-- The state a fresh poller starts with (src/sqs/client.ts:265-269). -/
def initialPollerState : PollerState :=
  { isPolling := true, messageCount := 0, errorCount := 0
    lastPollTime := none, lastError := none }

/-- `SqsClientWrapper.receiveMessages` (src/sqs/client.ts:119-141): the
whole call body sits in a try/catch; on a transport failure it logs an
error and returns the empty list instead of throwing. -/
def receiveMessages (qi : QueueInfo) (receiveOk : Bool) (recvErr : String)
    (available : List Message) : List Message × List Action :=
  if receiveOk then (available, [])
  else ([], [Action.logError ("Failed to receive messages from " ++ qi.queueUrl ++
    ": " ++ recvErr)])

/-- One cycle of `MessagePoller.pollQueue`. `st` is the entry found in
`pollerStates` for this poller id (`none` when absent). `now` models
`new Date()` for `lastPollTime`. `subTrace` is the trace
`processMessages` produces, and `procExc` is an exception escaping the
event-building/processing stage, caught by the cycle-level catch that
bumps `errorCount` (no such exception arises from the modelled
`processMessage`, whose own catches absorb everything, but the catch is
part of the code). A failed receive never reaches that catch: the client
wrapper already returned `[]`. -/
def pollQueue (qc : QueueConfig) (qi : QueueInfo) (st : Option PollerState)
    (now : Nat) (receiveOk : Bool) (recvErr : String) (available : List Message)
    (subTrace : List Action) (procExc : Option String) :
    Option PollerState × List Action :=
  match st with
  | none => (none, [])
  | some st =>
    if st.isPolling = false then (some st, [])
    else
      let st1 := { st with lastPollTime := some now }
      let recv := receiveMessages qi receiveOk recvErr available
      if recv.1.isEmpty then
        (some st1, recv.2 ++ [Action.logDebug ("No messages received from queue: " ++
          qc.queueName)])
      else
        let st2 := { st1 with messageCount := st1.messageCount + recv.1.length }
        let header := Action.logDebug ("Received " ++ toString recv.1.length ++
          " message(s) from queue: " ++ qc.queueName)
        match procExc with
        | none => (some st2, recv.2 ++ header :: subTrace)
        | some e =>
          (some { st2 with errorCount := st2.errorCount + 1, lastError := some e },
           recv.2 ++ header :: subTrace ++
             [Action.logError ("Error polling queue " ++ qc.queueName ++ ": " ++ e)])

/-! ## The poller registry (src/sqs/client.ts:219-284, 418-439)

`pollers` mirrors `pollers : Map<string, Timeout>` as an association list
from poller id to timer handle, in insertion order as a JS `Map`
iterates; `pollerStates` mirrors `pollerStates : Map<string, PollerState>`.
`startQueuePoller` is `async`: its `pollers.has(pollerId)` check runs
synchronously, then it suspends at `await this.sqsClient.getQueueInfo`
before `pollerStates.set`/`setInterval`/`pollers.set` run — and
`startPolling` (lines 241-251) does not await it, so the resumptions of
several starts can interleave after all the checks. `pending` holds the
starts suspended at that await, and `liveTimers` records every interval
timer created by `setInterval` and not yet cleared: an entry of
`liveTimers` is one active polling loop, whether or not its handle is
still in `pollers`. -/

def pollerIdOf (qc : QueueConfig) : String :=
  qc.queueName ++ "-" ++ qc.handler

/-- `Map.set`: overwrite in place if the key exists, append otherwise. -/
def assocSet {β : Type} (k : String) (v : β) : List (String × β) → List (String × β)
  | [] => [(k, v)]
  | (k', v') :: rest =>
    if k' = k then (k, v) :: rest else (k', v') :: assocSet k v rest

structure StartTask where
  taskId : Nat
  qc : QueueConfig
  deriving DecidableEq, Repr

structure PollerSys where
  pollers : List (String × Nat)
  pollerStates : List (String × PollerState)
  pending : List StartTask
  liveTimers : List (Nat × String)
  nextTimer : Nat
  nextTask : Nat
  deriving DecidableEq, Repr

/-- A freshly constructed `MessagePoller`. -/
def PollerSys.initial : PollerSys :=
  { pollers := [], pollerStates := [], pending := [], liveTimers := []
    nextTimer := 0, nextTask := 0 }

def pollerKeys (s : PollerSys) : List String :=
  s.pollers.map Prod.fst

/-- The number of live polling loops for one `(queueName, handler)` pair:
interval timers created for its poller id and never cleared. -/
def activeLoops (s : PollerSys) (pid : String) : Nat :=
  (s.liveTimers.filter (fun lt => lt.2 == pid)).length

/-- The synchronous prefix of `startQueuePoller` (src/sqs/client.ts:253-260):
compute the poller id, and if `pollers.has(pollerId)` warn and return;
otherwise suspend at `await getQueueInfo`, leaving a pending start. -/
def startBegin (qc : QueueConfig) (s : PollerSys) : PollerSys × List Action :=
  let pid := pollerIdOf qc
  if pid ∈ pollerKeys s then
    (s, [Action.logWarn ("Poller already running for queue: " ++ qc.queueName)])
  else
    ({ s with
       pending := s.pending ++ [{ taskId := s.nextTask, qc := qc }]
       nextTask := s.nextTask + 1 }, [])

/-- The resumption of a pending `startQueuePoller` once its `getQueueInfo`
call settles (src/sqs/client.ts:262-283). On success it records a fresh
state, creates an interval timer (`setInterval`), and `pollers.set`s its
handle — with no second `has` check, overwriting (and losing) any handle
already registered under that id; on rejection the catch logs an error. -/
def startResume (tid : Nat) (ok : Bool) (s : PollerSys) : PollerSys × List Action :=
  match s.pending.find? (fun t => t.taskId == tid) with
  | none => (s, [])
  | some task =>
    let s1 := { s with pending := s.pending.filter (fun t => t.taskId != tid) }
    let pid := pollerIdOf task.qc
    if ok then
      ({ s1 with
         pollerStates := assocSet pid initialPollerState s1.pollerStates
         liveTimers := s1.liveTimers ++ [(s1.nextTimer, pid)]
         pollers := assocSet pid s1.nextTimer s1.pollers
         nextTimer := s1.nextTimer + 1 },
       [Action.logInfo ("Started polling queue: " ++ task.qc.queueName ++ " -> " ++
         task.qc.handler)])
    else
      (s1, [Action.logError ("Failed to start poller for queue " ++ task.qc.queueName)])

/-- A start whose registration completes before anything else runs: the
synchronous prefix immediately followed by its own resumption (the
non-overlapping schedule). -/
def startSequential (qc : QueueConfig) (ok : Bool) (s : PollerSys) :
    PollerSys × List Action :=
  if pollerIdOf qc ∈ pollerKeys s then startBegin qc s
  else startResume s.nextTask ok (startBegin qc s).1

/-- `MessagePoller.stopPolling` (src/sqs/client.ts:418-431): every timer
whose handle is still in `pollers` is cleared, its state marked not
polling, and the `pollers` map cleared. A live timer whose handle was
overwritten out of `pollers` is not cleared. -/
def stopPolling (s : PollerSys) : PollerSys :=
  { s with
    pollers := []
    liveTimers := s.liveTimers.filter
      (fun lt => !((s.pollers.map Prod.snd).contains lt.1))
    pollerStates := s.pollerStates.map
      (fun p => if p.1 ∈ pollerKeys s then (p.1, { p.2 with isPolling := false }) else p) }

/-- A cycle of `pollQueue` for poller id `pid` rewrites only that entry of
`pollerStates` (through the shared `state` reference); the registry
fields are untouched. -/
def pollStateStep (pid : String) (f : PollerState → PollerState) (s : PollerSys) :
    PollerSys :=
  { s with
    pollerStates := s.pollerStates.map (fun p => if p.1 = pid then (p.1, f p.2) else p) }

/-- The states a `MessagePoller` can reach from construction through any
interleaving of start prefixes, start resumptions, stops and poll
cycles. -/
inductive Reachable : PollerSys → Prop where
  | base : Reachable PollerSys.initial
  | beginStart (qc : QueueConfig) {s : PollerSys} :
      Reachable s → Reachable (startBegin qc s).1
  | resumeStart (tid : Nat) (ok : Bool) {s : PollerSys} :
      Reachable s → Reachable (startResume tid ok s).1
  | stop {s : PollerSys} : Reachable s → Reachable (stopPolling s)
  | poll (pid : String) (f : PollerState → PollerState) {s : PollerSys} :
      Reachable s → Reachable (pollStateStep pid f s)

/-- The states reachable when starts never overlap: each start resumes
and registers before the next event runs. -/
inductive SeqReachable : PollerSys → Prop where
  | base : SeqReachable PollerSys.initial
  | start (qc : QueueConfig) (ok : Bool) {s : PollerSys} :
      SeqReachable s → SeqReachable (startSequential qc ok s).1
  | stop {s : PollerSys} : SeqReachable s → SeqReachable (stopPolling s)
  | poll (pid : String) (f : PollerState → PollerState) {s : PollerSys} :
      SeqReachable s → SeqReachable (pollStateStep pid f s)

/-- Registry health under non-overlapping starts: no start is suspended,
every live timer is exactly one registered `pollers` entry, and poller
ids are registered at most once. -/
def RegistryInv (s : PollerSys) : Prop :=
  s.pending = []
  ∧ s.liveTimers = s.pollers.map (fun p => (p.2, p.1))
  ∧ (pollerKeys s).Nodup

/-! ## LambdaInvoker.executeHandler / invokeHandler
(src/lambda/invoker.ts:33-66, 151-233)

`executeHandler` races the handler against a timeout timer and settles a
promise with whichever signal fires first (the `isResolved` latch drops
every later signal). A run of the handler is characterised by a possible
synchronous throw and the chronological list of completion signals it
would emit (callback calls, context.done/succeed/fail, promise
settlement), each with the time it fires relative to the call. -/

inductive Settle where
  | resolve (v : String)
  | reject (e : String)
  deriving DecidableEq, Repr

structure HandlerRun where
  syncThrow : Option String
  signals : List (Nat × Settle)
  deriving DecidableEq, Repr

/-- `Handler timed out after N ms` (the remaining time at setup is the
full configured timeout). -/
def timeoutMsg (deadline : Nat) : String :=
  "Handler timed out after " ++ toString deadline ++ "ms"

/-- A synchronous throw rejects before any timer can fire; otherwise the
first signal wins if it fires before the deadline, and the timeout timer
rejects when nothing has settled by then. -/
def executeHandler (deadline : Nat) (run : HandlerRun) : Settle :=
  match run.syncThrow with
  | some e => Settle.reject e
  | none =>
    match run.signals with
    | [] => Settle.reject (timeoutMsg deadline)
    | (t, s) :: _ => if t < deadline then s else Settle.reject (timeoutMsg deadline)

/-- Whether a run reaches the deadline with no completion signal. -/
def timesOut (deadline : Nat) (run : HandlerRun) : Bool :=
  run.syncThrow.isNone &&
    (match run.signals with
     | [] => true
     | (t, _) :: _ => decide (deadline ≤ t))

/-- `LambdaInvoker.invokeHandler`: loading the handler can itself throw
(`HandlerNotFound`, `HandlerNotCallable`, ...), which the outer catch
turns into a failed result; the inner catch turns every rejection of
`executeHandler` into a failed result. Nothing escapes to the caller. -/
def invokeHandler (deadline : Nat) (load : Except String HandlerRun) : HandlerResult :=
  match load with
  | .error e => { success := false, error := some e, result := none }
  | .ok run =>
    match executeHandler deadline run with
    | .resolve v => { success := true, error := none, result := some v }
    | .reject e => { success := false, error := some e, result := none }

/-! ## QueueManager (src/sqs/queue-manager.ts, third section of the blob)

CloudFormation property values reaching `parseQueueResource` are either
JSON scalars or intrinsic-function objects such as
`Fn::GetAtt [logical, attr]`; `null`/absent is `CfnVal.null`. -/

inductive CfnVal where
  | str (s : String)
  | fnGetAtt (logicalId attr : String)
  | null
  deriving DecidableEq, Repr

/-- JS truthiness of such a value (the empty string is falsy). -/
def CfnVal.truthy : CfnVal → Bool
  | .str s => !(s = "")
  | .fnGetAtt _ _ => true
  | .null => false

structure RedrivePolicy where
  deadLetterTargetArn : CfnVal
  maxReceiveCount : Option Nat
  deriving DecidableEq, Repr

structure QueueProperties where
  queueName : Option String
  visibilityTimeout : Option Nat
  receiveMessageWaitTimeSeconds : Option Nat
  messageRetentionPeriod : Option Nat
  delaySeconds : Option Nat
  redrivePolicy : Option RedrivePolicy
  deriving DecidableEq, Repr

structure CfnResource where
  type : String
  properties : QueueProperties
  deriving DecidableEq, Repr

/-- The `attributes` record `parseQueueResource` assembles; `redrivePolicy`
holds the `JSON.stringify(properties.RedrivePolicy)` text, rendered
deterministically. -/
structure QueueAttributes where
  visibilityTimeout : Option String
  receiveMessageWaitTimeSeconds : Option String
  messageRetentionPeriod : Option String
  delaySeconds : Option String
  redrivePolicy : Option String
  deriving DecidableEq, Repr

def CfnVal.render : CfnVal → String
  | .str s => "\x22" ++ s ++ "\x22"
  | .fnGetAtt l a => "\x7b\x22Fn::GetAtt\x22:[\x22" ++ l ++ "\x22,\x22" ++ a ++ "\x22]\x7d"
  | .null => "null"

def RedrivePolicy.render (rp : RedrivePolicy) : String :=
  "\x7b\x22deadLetterTargetArn\x22:" ++ rp.deadLetterTargetArn.render ++
    (match rp.maxReceiveCount with
     | some n => ",\x22maxReceiveCount\x22:" ++ toString n
     | none => "") ++ "\x7d"

structure QueueResource where
  logicalId : String
  queueName : String
  attributes : QueueAttributes
  dlqName : Option String
  deriving DecidableEq, Repr

/-- `s.split(sep)` on the character list of `s`. -/
def splitCharsOn (sep : Char) : List Char → List (List Char)
  | [] => [[]]
  | c :: cs =>
    match splitCharsOn sep cs with
    | [] => [[]]
    | g :: gs => if c = sep then [] :: g :: gs else (c :: g) :: gs

/-- `arnParts[arnParts.length - 1]` of `s.split(':')`. -/
def lastColonSegment (s : String) : String :=
  ((splitCharsOn (Char.ofNat 58) s.data).getLastD []).asString

/-- `deadLetterTargetArn.split(':')` followed by taking the last segment:
a `TypeError` when the value is not a string (for example an
`Fn::GetAtt` object, which has no `split` method). -/
def arnLastSegment : CfnVal → Except String String
  | .str s => Except.ok (lastColonSegment s)
  | v => Except.error ("TypeError: " ++ v.render ++ ".split is not a function")

/-- `QueueManager.parseQueueResource` (blob lines 589-631): the whole body
is wrapped in try/catch; a thrown `TypeError` lands in the catch, which
warns and returns `null` (modelled `none`), dropping the resource. -/
def parseQueueResource (logicalId : String) (resource : CfnResource) :
    Option QueueResource :=
  let properties := resource.properties
  let queueName := orElseStr properties.queueName logicalId
  let attributes : QueueAttributes :=
    { visibilityTimeout := properties.visibilityTimeout.map toString
      receiveMessageWaitTimeSeconds := properties.receiveMessageWaitTimeSeconds.map toString
      messageRetentionPeriod := properties.messageRetentionPeriod.map toString
      delaySeconds := properties.delaySeconds.map toString
      redrivePolicy := properties.redrivePolicy.map RedrivePolicy.render }
  match properties.redrivePolicy with
  | none =>
    some { logicalId := logicalId, queueName := queueName
           attributes := attributes, dlqName := none }
  | some rp =>
    if rp.deadLetterTargetArn.truthy then
      match arnLastSegment rp.deadLetterTargetArn with
      | .ok seg =>
        some { logicalId := logicalId, queueName := queueName
               attributes := attributes, dlqName := some seg }
      | .error _ => none
    else
      some { logicalId := logicalId, queueName := queueName
             attributes := attributes, dlqName := none }

/-- `QueueManager.extractSqsResources` + `createQueuesFromCloudFormation`
(blob lines 480-501, 566-583): filter to `AWS::SQS::Queue` resources,
parse each, and for each parsed resource create the DLQ first (when a
`dlqName` was extracted) and then the main queue. The result lists the
queue names passed to `createQueue`, in order. -/
def createQueuesFromCloudFormation (resources : List (String × CfnResource)) :
    List String :=
  (resources.filterMap
    (fun p => if p.2.type = "AWS::SQS::Queue" then parseQueueResource p.1 p.2 else none)).flatMap
    (fun r => r.dlqName.toList ++ [r.queueName])

/-! ## Heap model for `getPollerStates` (src/sqs/client.ts:433-435)

`getPollerStates` returns `new Map(this.pollerStates)`: a freshly
allocated map whose entry list is copied from the internal one. Maps live
in a heap of addresses; entry values are the addresses of the (shared)
`PollerState` objects, as a JS `Map` copy is shallow. -/

structure MapHeap where
  next : Nat
  store : Nat → Option (List (String × Nat))

inductive MapOp where
  | set (k : String) (v : Nat)
  | del (k : String)
  | clear
  deriving DecidableEq, Repr

def applyOpEntries : MapOp → List (String × Nat) → List (String × Nat)
  | .set k v, es => assocSet k v es
  | .del k, es => es.filter (fun p => p.1 != k)
  | .clear, _ => []

/-- A caller-side `Map.set`/`Map.delete`/`Map.clear` on the map at
address `a`. -/
def applyMapOp (h : MapHeap) (a : Nat) (op : MapOp) : MapHeap :=
  { h with
    store := fun a' => if a' = a then (h.store a).map (applyOpEntries op) else h.store a' }

/-- `new Map(src)`: allocate a fresh address holding a copy of the entry
list of `src`. -/
def newMapCopy (h : MapHeap) (src : Nat) : Nat × MapHeap :=
  (h.next,
   { next := h.next + 1
     store := fun a => if a = h.next then h.store src else h.store a })

/-- `MessagePoller.getPollerStates`, given the address of the internal
`pollerStates` map. -/
def getPollerStates (h : MapHeap) (engineAddr : Nat) : Nat × MapHeap :=
  newMapCopy h engineAddr

/-! ## Concrete instances used by the witnesses and counterexamples -/

def cfgEx : PluginConfig := defaultPluginConfig

def qcEx : QueueConfig :=
  { queueName := "orders"
    handler := "handlers/order.main"
    enabled := some true
    batchSize := some 10
    maxConcurrentPolls := none
    visibilityTimeout := none
    waitTimeSeconds := none
    dlq := some { enabled := true, maxReceiveCount := none, queueName := none } }

def qiEx : QueueInfo :=
  { queueUrl := "http://localhost:4566/000000000000/orders", queueName := "orders" }

def envEx : String → String :=
  fun n => "http://localhost:4566/000000000000/" ++ n

/-- A message on its third delivery attempt. -/
def mAt3 : Message :=
  { messageId := "m-1", receiptHandle := "rh-1", body := "b1"
    approximateReceiveCount := some "3" }

/-- A message on its first delivery attempt. -/
def mAt1 : Message :=
  { messageId := "m-2", receiptHandle := "rh-2", body := "b2"
    approximateReceiveCount := some "1" }

/-- The `orders` queue with a per-queue concurrency limit of 2. -/
def qcConc2 : QueueConfig :=
  { qcEx with maxConcurrentPolls := some 2 }

/-- A received batch of six messages. -/
def msgs6 : List Message :=
  (List.range 6).map (fun i =>
    { messageId := "m-" ++ toString i, receiptHandle := "rh-" ++ toString i
      body := "b", approximateReceiveCount := some "1" })

def emptyProps : QueueProperties :=
  { queueName := none, visibilityTimeout := none
    receiveMessageWaitTimeSeconds := none, messageRetentionPeriod := none
    delaySeconds := none, redrivePolicy := none }

/-- CloudFormation queue resource named with dots and symbols. -/
def resDotsName : CfnResource :=
  { type := "AWS::SQS::Queue"
    properties := { emptyProps with queueName := some "queue.with.dots.and@symbols!" } }

/-- CloudFormation queue resource whose name is all invalid characters. -/
def resSymbolsName : CfnResource :=
  { type := "AWS::SQS::Queue"
    properties := { emptyProps with queueName := some "@#$%^&*()" } }

/-- Redrive target given as a literal ARN string. -/
def resArnTarget : CfnResource :=
  { type := "AWS::SQS::Queue"
    properties := { emptyProps with
      queueName := some "test-queue"
      redrivePolicy := some
        { deadLetterTargetArn := CfnVal.str "arn:aws:sqs:us-east-1:123456789012:test-dlq"
          maxReceiveCount := some 3 } } }

/-- Redrive target given as a symbolic `Fn::GetAtt` reference to another
declared resource, as in test/queue-manager-webhook.test.ts. -/
def resGetAttTarget : CfnResource :=
  { type := "AWS::SQS::Queue"
    properties := { emptyProps with
      queueName := some "wetrained-webhook-events-local.fifo"
      redrivePolicy := some
        { deadLetterTargetArn := CfnVal.fnGetAtt "WebhookEventsDLQ" "Arn"
          maxReceiveCount := some 3 } } }

/-- Redrive target absent (`deadLetterTargetArn: null`). -/
def resNullTarget : CfnResource :=
  { type := "AWS::SQS::Queue"
    properties := { emptyProps with
      queueName := some "test-queue-2"
      redrivePolicy := some
        { deadLetterTargetArn := CfnVal.null, maxReceiveCount := some 3 } } }

/-- A one-map heap: the engine's `pollerStates` map lives at address 0 and
holds one entry whose value points at a `PollerState` object. -/
def heapEx : MapHeap :=
  { next := 1
    store := fun a => if a = 0 then some [("orders-handlers/order.main", 0)] else none }

/-- The registry state after two overlapping starts for the same
`(queueName, handler)` pair: both synchronous prefixes run (startPolling
does not await startQueuePoller), both pass the `pollers.has` check while
neither has registered, then both resumptions run. -/
def sOverlap : PollerSys :=
  (startResume 1 true (startResume 0 true
    (startBegin qcEx (startBegin qcEx PollerSys.initial).1).1).1).1

/-! ## Claims -/

/-- C1. For every message whose handler invocation fails with
deliveryAttemptCount (ApproximateReceiveCount, defaulting to 1) at or
above the effective maxDeliveryAttempts and a dead-letter policy enabled
on the queue, the delivery engine performs exactly one send of an
envelope to the resolved DLQ followed by exactly one delete of the
original message from the source queue, in that order. -/
theorem redrive_sends_once_then_deletes_once
    (cfg : PluginConfig) (qc : QueueConfig) (qi : QueueInfo)
    (env : String → String) (now : String) (m : Message)
    (hr : HandlerResult) (deleteOk : Bool) (delErr : String)
    (hfail : hr.success = false)
    (hthresh : atOrAboveThreshold (receiveCountOf m) (effectiveMaxReceiveCount qc cfg) = true)
    (hdlq : dlqEnabled qc = true) :
    (processMessage cfg qc qi env now m hr deleteOk delErr).filter Action.isTransport =
      [Action.sendMessage (env (resolvedDlqName cfg qc))
        { originalMessage := m
          failureReason := failureReasonOf hr.error
          failureTime := now
          queueName := qc.queueName
          handler := qc.handler },
       Action.deleteMessage qi.queueUrl m.receiptHandle] := by
  simp [processMessage, hfail, handleMessageFailure, hthresh, hdlq, Action.isTransport]

/-- Witness for C1: the `orders` queue with default config, a failed
handler run and a message on attempt 3 of 3 with the DLQ enabled. -/
theorem redrive_sends_once_then_deletes_once_witness :
    (processMessage cfgEx qcEx qiEx envEx "2024-01-01T00:00:00.000Z" mAt3
        { success := false, error := some "boom", result := none } true "").filter
        Action.isTransport =
      [Action.sendMessage "http://localhost:4566/000000000000/orders-dlq"
        { originalMessage := mAt3
          failureReason := "boom"
          failureTime := "2024-01-01T00:00:00.000Z"
          queueName := "orders"
          handler := "handlers/order.main" },
       Action.deleteMessage "http://localhost:4566/000000000000/orders" "rh-1"] :=
  redrive_sends_once_then_deletes_once cfgEx qcEx qiEx envEx
    "2024-01-01T00:00:00.000Z" mAt3
    { success := false, error := some "boom", result := none } true ""
    (by decide) (by decide) (by decide)

/-- C2 counterexample: a handler invocation that succeeds, on a message at
attempt 3 of 3 with the DLQ enabled, whose source-queue delete then
fails. The claim says the deletion failure is only logged and no
retry/redrive handling is triggered; in the code `deleteMessage`
rethrows, the catch in `processMessage` calls `handleMessageFailure`, and
the message is redriven: the transport trace holds the failed delete
attempt, a DLQ send and a second delete. -/
theorem success_then_failed_delete_redrives :
    (processMessage cfgEx qcEx qiEx envEx "T0" mAt3
        { success := true, error := none, result := some "ok" } false "boom").filter
        Action.isTransport =
      [Action.deleteMessage "http://localhost:4566/000000000000/orders" "rh-1",
       Action.sendMessage "http://localhost:4566/000000000000/orders-dlq"
        { originalMessage := mAt3
          failureReason := "boom"
          failureTime := "T0"
          queueName := "orders"
          handler := "handlers/order.main" },
       Action.deleteMessage "http://localhost:4566/000000000000/orders" "rh-1"] := by
  decide

/-- C2 (amended). For every message whose handler invocation succeeds, the
engine issues exactly one source-queue delete and no DLQ send when that
delete succeeds; when the delete fails, the failure is logged and the
message is routed through `handleMessageFailure` as a failed message (so
at or above the threshold with a DLQ enabled it is redriven). -/
theorem success_outcome_processing
    (cfg : PluginConfig) (qc : QueueConfig) (qi : QueueInfo)
    (env : String → String) (now : String) (m : Message)
    (hr : HandlerResult) (delErr : String)
    (hs : hr.success = true) :
    ((processMessage cfg qc qi env now m hr true delErr).filter Action.isTransport =
       [Action.deleteMessage qi.queueUrl m.receiptHandle])
  ∧ (processMessage cfg qc qi env now m hr false delErr =
       Action.deleteMessage qi.queueUrl m.receiptHandle ::
       Action.logError ("Failed to delete message: " ++ delErr) ::
       Action.logError ("Unexpected error processing message " ++ m.messageId ++
         ": " ++ delErr) ::
       handleMessageFailure cfg qc qi env now m (some delErr)) := by
  constructor
  · simp [processMessage, hs, Action.isTransport]
  · simp [processMessage, hs]

/-- Witness for C2 (amended): a successful run on the `orders` queue. -/
theorem success_outcome_processing_witness :
    ((processMessage cfgEx qcEx qiEx envEx "T0" mAt1
        { success := true, error := none, result := some "ok" } true "e").filter
        Action.isTransport =
      [Action.deleteMessage "http://localhost:4566/000000000000/orders" "rh-2"])
  ∧ (processMessage cfgEx qcEx qiEx envEx "T0" mAt1
        { success := true, error := none, result := some "ok" } false "e" =
      Action.deleteMessage "http://localhost:4566/000000000000/orders" "rh-2" ::
      Action.logError "Failed to delete message: e" ::
      Action.logError "Unexpected error processing message m-2: e" ::
      handleMessageFailure cfgEx qcEx qiEx envEx "T0" mAt1 (some "e")) :=
  success_outcome_processing cfgEx qcEx qiEx envEx "T0" mAt1
    { success := true, error := none, result := some "ok" } "e" (by decide)

/-- C3. For every message whose handler invocation fails with
deliveryAttemptCount strictly below the effective maxDeliveryAttempts,
the delivery engine issues no delete and no DLQ send for that message;
the same holds when the count is at or above the threshold but no DLQ is
enabled. -/
theorem failure_below_threshold_no_transport
    (cfg : PluginConfig) (qc : QueueConfig) (qi : QueueInfo)
    (env : String → String) (now : String) (m : Message)
    (hr : HandlerResult) (deleteOk : Bool) (delErr : String)
    (hfail : hr.success = false)
    (hcond : atOrAboveThreshold (receiveCountOf m) (effectiveMaxReceiveCount qc cfg) = false
      ∨ dlqEnabled qc = false) :
    (processMessage cfg qc qi env now m hr deleteOk delErr).filter Action.isTransport = [] := by
  rcases hcond with h | h <;>
    simp [processMessage, hfail, handleMessageFailure, h, Action.isTransport]

/-- Witness for C3: a failed run on attempt 1 of 3 issues no transport
call. -/
theorem failure_below_threshold_no_transport_witness :
    (processMessage cfgEx qcEx qiEx envEx "T0" mAt1
        { success := false, error := some "boom", result := none } true "").filter
        Action.isTransport = [] :=
  failure_below_threshold_no_transport cfgEx qcEx qiEx envEx "T0" mAt1
    { success := false, error := some "boom", result := none } true ""
    (by decide) (Or.inl (by decide))

/-- C4. For every invocation `invoke(handlerRef, event, deadline)`, the
invoker always returns an `InvocationOutcome` and never lets a fault
escape to the caller: every run yields a `HandlerResult`, and it is
either a success carrying a result or a failure carrying an error;
a synchronous throw, an asynchronous rejection before the deadline, and a
deadline elapsing with no completion each come back as a failed result
carrying that error (the last with the timeout error). -/
theorem invoker_captures_all_faults (deadline : Nat) (load : Except String HandlerRun) :
    ((invokeHandler deadline load).success = true
       ∨ ((invokeHandler deadline load).success = false
            ∧ ((invokeHandler deadline load).error).isSome = true))
  ∧ (∀ run e, load = Except.ok run → run.syncThrow = some e →
      invokeHandler deadline load =
        { success := false, error := some e, result := none })
  ∧ (∀ run t e rest, load = Except.ok run → run.syncThrow = none →
      run.signals = (t, Settle.reject e) :: rest → t < deadline →
      invokeHandler deadline load =
        { success := false, error := some e, result := none })
  ∧ (∀ run, load = Except.ok run → timesOut deadline run = true →
      invokeHandler deadline load =
        { success := false, error := some (timeoutMsg deadline), result := none }) := by
  refine ⟨?_, ?_, ?_, ?_⟩
  · cases load with
    | error e => simp [invokeHandler]
    | ok run =>
      cases h : executeHandler deadline run with
      | resolve v => simp [invokeHandler, h]
      | reject e => simp [invokeHandler, h]
  · rintro run e rfl hst
    simp [invokeHandler, executeHandler, hst]
  · rintro run t e rest rfl hst hsig ht
    simp [invokeHandler, executeHandler, hst, hsig, ht]
  · rintro run rfl hto
    unfold timesOut at hto
    cases hst : run.syncThrow with
    | some e => simp [hst] at hto
    | none =>
      cases hsig : run.signals with
      | nil => simp [invokeHandler, executeHandler, hst, hsig]
      | cons p rest =>
        obtain ⟨t, s⟩ := p
        rw [hst, hsig] at hto
        simp at hto
        simp [invokeHandler, executeHandler, hst, hsig, Nat.not_lt.mpr hto]

/-- Witness for C4: a handler that throws synchronously, and a handler
that never completes under a 30000 ms deadline. -/
theorem invoker_captures_all_faults_witness :
    invokeHandler 30000 (Except.ok { syncThrow := some "boom", signals := [] }) =
      { success := false, error := some "boom", result := none }
  ∧ invokeHandler 30000 (Except.ok { syncThrow := none, signals := [(40000, Settle.resolve "late")] }) =
      { success := false, error := some (timeoutMsg 30000), result := none } :=
  ⟨(invoker_captures_all_faults 30000
      (Except.ok { syncThrow := some "boom", signals := [] })).2.1
      { syncThrow := some "boom", signals := [] } "boom" rfl rfl,
   (invoker_captures_all_faults 30000
      (Except.ok { syncThrow := none, signals := [(40000, Settle.resolve "late")] })).2.2.2
      { syncThrow := none, signals := [(40000, Settle.resolve "late")] } rfl (by decide)⟩

/-- Helper: `Map.set` appends when the key is not yet present. -/
theorem assocSet_of_not_mem {β : Type} (k : String) (v : β) :
    ∀ l : List (String × β), k ∉ l.map Prod.fst → assocSet k v l = l ++ [(k, v)] := by
  intro l
  induction l with
  | nil => intro _; rfl
  | cons p rest ih =>
    intro h
    simp only [List.map_cons, List.mem_cons] at h
    push_neg at h
    obtain ⟨p1, p2⟩ := p
    simp only [assocSet]
    rw [if_neg (fun he => h.1 he.symm), ih h.2]
    rfl

/-- Helper: a pair with no registered entry has no live timer entries. -/
theorem filter_snd_eq_nil (pid : String) :
    ∀ l : List (String × Nat), pid ∉ l.map Prod.fst →
      (l.map (fun p => (p.2, p.1))).filter (fun lt => lt.2 == pid) = [] := by
  intro l
  induction l with
  | nil => intro _; rfl
  | cons p rest ih =>
    intro h
    simp only [List.map_cons, List.mem_cons] at h
    push_neg at h
    simp only [List.map_cons, List.filter_cons]
    have hb : (p.1 == pid) = false := by
      simp only [beq_eq_false_iff_ne]
      exact fun he => h.1 he.symm
    simp [hb, ih h.2]

/-- Helper: duplicate-free keys give at most one live timer per pair. -/
theorem filter_snd_length_le_one (pid : String) :
    ∀ l : List (String × Nat), (l.map Prod.fst).Nodup →
      ((l.map (fun p => (p.2, p.1))).filter (fun lt => lt.2 == pid)).length ≤ 1 := by
  intro l
  induction l with
  | nil => intro _; simp
  | cons p rest ih =>
    intro h
    simp only [List.map_cons, List.nodup_cons] at h
    obtain ⟨hp, hrest⟩ := h
    simp only [List.map_cons, List.filter_cons]
    by_cases he : p.1 = pid
    · subst he
      simp only [beq_self_eq_true, if_pos]
      rw [filter_snd_eq_nil p.1 rest hp]
      simp
    · have hb : (p.1 == pid) = false := by
        simp only [beq_eq_false_iff_ne]
        exact he
      simp only [hb]
      exact ih hrest

/-- Helper: under non-overlapping starts every step preserves the
registry invariant. -/
theorem seqReachable_inv {s : PollerSys} (hs : SeqReachable s) : RegistryInv s := by
  induction hs with
  | base => exact ⟨rfl, rfl, List.nodup_nil⟩
  | @start qc ok s' _ ih =>
    obtain ⟨hp, hl, hn⟩ := ih
    unfold startSequential
    by_cases hmem : pollerIdOf qc ∈ pollerKeys s'
    · simpa [startBegin, hmem] using ⟨hp, hl, hn⟩
    · rw [if_neg hmem]
      have hbegin : (startBegin qc s').1 =
          { s' with
            pending := s'.pending ++ [{ taskId := s'.nextTask, qc := qc }]
            nextTask := s'.nextTask + 1 } := by
        simp [startBegin, hmem]
      rw [hbegin, hp]
      cases ok with
      | true =>
        refine ⟨by simp [startResume], ?_, ?_⟩
        · simp only [startResume, List.nil_append, List.find?_cons, beq_self_eq_true]
          simp only [RegistryInv] at *
          rw [assocSet_of_not_mem (pollerIdOf qc) s'.nextTimer s'.pollers hmem]
          simp [hl]
        · simp only [startResume, List.nil_append, List.find?_cons, beq_self_eq_true]
          simp only [pollerKeys] at *
          rw [assocSet_of_not_mem (pollerIdOf qc) s'.nextTimer s'.pollers hmem]
          simp [List.nodup_append, hn, hmem]
      | false =>
        refine ⟨by simp [startResume], by simpa [startResume] using hl,
          by simpa [startResume, pollerKeys] using hn⟩
  | @stop s' _ ih =>
    obtain ⟨hp, hl, hn⟩ := ih
    refine ⟨hp, ?_, by simp [stopPolling, pollerKeys]⟩
    simp only [stopPolling]
    rw [hl]
    rw [List.filter_eq_nil_iff.mpr ?_]
    · rfl
    · intro lt hlt
      simp only [List.mem_map] at hlt
      obtain ⟨p, hpmem, rfl⟩ := hlt
      simp [List.mem_map_of_mem Prod.snd hpmem]
  | @poll pid f s' _ ih =>
    obtain ⟨hp, hl, hn⟩ := ih
    exact ⟨hp, hl, hn⟩

/-- Helper: the invariant bounds the live loops of every pair by one. -/
theorem inv_activeLoops_le_one {s : PollerSys} (h : RegistryInv s) (pid : String) :
    activeLoops s pid ≤ 1 := by
  obtain ⟨-, hl, hn⟩ := h
  unfold activeLoops
  rw [hl]
  exact filter_snd_length_le_one pid s.pollers hn

/-- C7 counterexample: the claim says at most one active polling loop per
`(queueName, handlerRef)` pair at every reachable state. `startQueuePoller`
checks `pollers.has(pollerId)` and only then suspends at
`await getQueueInfo`, and `startPolling` never awaits it, so two starts
for the same pair (for example a queue listed both in `custom.queues` and
extracted from function events — index.ts concatenates them without
deduplication) both pass the check before either registers: after both
resume, two interval loops are live for the pair, and the first timer
handle was overwritten out of `pollers`, so even `stopPolling` leaves
that first loop running. -/
theorem overlapping_starts_create_second_loop :
    Reachable sOverlap
  ∧ activeLoops sOverlap "orders-handlers/order.main" = 2
  ∧ (stopPolling sOverlap).liveTimers = [(0, "orders-handlers/order.main")] := by
  refine ⟨?_, by decide, by decide⟩
  exact Reachable.resumeStart 1 true (Reachable.resumeStart 0 true
    (Reachable.beginStart qcEx (Reachable.beginStart qcEx Reachable.base)))

/-- C7 (amended). At every state reachable while starts do not overlap
(each start resumes and registers before the next event runs), at most
one active polling loop exists per `(queueName, handlerRef)` pair; and
whenever a pair is registered, a further start for it — its synchronous
prefix, and hence the whole start — is a no-op that emits a warning,
creates no second loop and raises no error. -/
theorem sequential_starts_single_loop_per_pair (s : PollerSys) (hs : SeqReachable s) :
    (∀ pid : String, activeLoops s pid ≤ 1)
  ∧ (∀ qc : QueueConfig, pollerIdOf qc ∈ pollerKeys s →
       startBegin qc s =
         (s, [Action.logWarn ("Poller already running for queue: " ++ qc.queueName)]))
  ∧ (∀ (qc : QueueConfig) (ok : Bool), pollerIdOf qc ∈ pollerKeys s →
       startSequential qc ok s =
         (s, [Action.logWarn ("Poller already running for queue: " ++ qc.queueName)])) := by
  refine ⟨fun pid => inv_activeLoops_le_one (seqReachable_inv hs) pid, ?_, ?_⟩
  · intro qc hmem
    simp [startBegin, hmem]
  · intro qc ok hmem
    simp [startSequential, startBegin, hmem]

/-- Witness for C7 (amended): one completed start of the `orders` poller
leaves one live loop; a second (non-overlapping) start is a warning-only
no-op. -/
theorem sequential_starts_single_loop_per_pair_witness :
    (activeLoops (startSequential qcEx true PollerSys.initial).1
       "orders-handlers/order.main" ≤ 1)
  ∧ (startSequential qcEx true (startSequential qcEx true PollerSys.initial).1 =
      ((startSequential qcEx true PollerSys.initial).1,
       [Action.logWarn "Poller already running for queue: orders"])) :=
  have h := sequential_starts_single_loop_per_pair
    (startSequential qcEx true PollerSys.initial).1
    (SeqReachable.start qcEx true SeqReachable.base)
  ⟨h.1 "orders-handlers/order.main", h.2.2 qcEx true (by decide)⟩

/-- Helper: with enough fuel the chunks concatenate back to the input. -/
theorem chunksGo_flatten {α : Type} (c : Nat) (hc : 1 ≤ c) :
    ∀ (fuel : Nat) (ms : List α), ms.length ≤ fuel →
      (chunksGo c fuel ms).flatten = ms := by
  intro fuel
  induction fuel with
  | zero =>
    intro ms h
    cases ms with
    | nil => simp [chunksGo]
    | cons m ms => simp at h
  | succ n ih =>
    intro ms h
    cases ms with
    | nil => simp [chunksGo]
    | cons m ms =>
      simp only [chunksGo, List.flatten_cons]
      rw [ih ((m :: ms).drop c)
        (by simp only [List.length_drop, List.length_cons] at *; omega)]
      exact List.take_append_drop c (m :: ms)

/-- Helper: every chunk is nonempty and no longer than `c`. -/
theorem chunksGo_sizes {α : Type} (c : Nat) (hc : 1 ≤ c) :
    ∀ (fuel : Nat) (ms : List α), ms.length ≤ fuel →
      ∀ b ∈ chunksGo c fuel ms, b.length ≤ c ∧ b ≠ [] := by
  intro fuel
  induction fuel with
  | zero =>
    intro ms h b hb
    cases ms with
    | nil => simp [chunksGo] at hb
    | cons m ms => simp at h
  | succ n ih =>
    intro ms h b hb
    cases ms with
    | nil => simp [chunksGo] at hb
    | cons m ms =>
      simp only [chunksGo, List.mem_cons] at hb
      rcases hb with rfl | hb
      · constructor
        · simp [List.length_take]

        · have : (List.take c (m :: ms)).length = min c (m :: ms).length := by simp
          intro hnil
          rw [hnil] at this
          simp at this
          omega
      · exact ih ((m :: ms).drop c)
          (by simp only [List.length_drop, List.length_cons] at *; omega) b hb

/-- Helper: with enough fuel the number of chunks is `⌈n / c⌉`. -/
theorem chunksGo_length {α : Type} (c : Nat) (hc : 1 ≤ c) :
    ∀ (fuel : Nat) (ms : List α), ms.length ≤ fuel →
      (chunksGo c fuel ms).length = (ms.length + c - 1) / c := by
  intro fuel
  induction fuel with
  | zero =>
    intro ms h
    cases ms with
    | nil => simp [chunksGo, Nat.div_eq_of_lt (by omega : c - 1 < c)]
    | cons m ms => simp at h
  | succ n ih =>
    intro ms h
    cases ms with
    | nil => simp [chunksGo, Nat.div_eq_of_lt (by omega : c - 1 < c)]
    | cons m ms =>
      simp only [chunksGo, List.length_cons]
      rw [ih ((m :: ms).drop c)
        (by simp only [List.length_drop, List.length_cons] at *; omega)]
      simp only [List.length_drop, List.length_cons]
      have hc0 : 0 < c := hc
      have e2 : ms.length + 1 + c - 1 = ms.length + c := by omega
      rw [e2, Nat.add_div_right _ hc0]
      rcases le_or_lt c (ms.length + 1) with hge | hlt
      · have e1 : ms.length + 1 - c + c - 1 = ms.length := by omega
        rw [e1]
      · have e1 : ms.length + 1 - c + c - 1 = c - 1 := by omega
        rw [e1, Nat.div_eq_of_lt (by omega : c - 1 < c),
          Nat.div_eq_of_lt (by omega : ms.length < c)]

/-- C8. For every received batch of `n` messages and effective concurrency
limit `c ≥ 1` (`queueConfig.maxConcurrentPolls || config.maxConcurrentPolls`),
the delivery engine partitions the batch into exactly `⌈n / c⌉`
sub-batches each of size at most `c`, covering all `n` messages in order,
and processes the sub-batches strictly in sequence: the trace of
`processMessages` is the per-sub-batch traces of exactly those chunks, in
chunk order. -/
theorem batch_partition (cfg : PluginConfig) (qc : QueueConfig) (qi : QueueInfo)
    (env : String → String) (now : String)
    (hrOf : Message → HandlerResult) (delOf : Message → Bool)
    (delErrOf : Message → String) (ms : List Message)
    (hc : 1 ≤ effectiveMaxConcurrency qc cfg) :
    ((chunkMessages (effectiveMaxConcurrency qc cfg) ms).length =
       (ms.length + effectiveMaxConcurrency qc cfg - 1) / effectiveMaxConcurrency qc cfg)
  ∧ (∀ b ∈ chunkMessages (effectiveMaxConcurrency qc cfg) ms,
       b.length ≤ effectiveMaxConcurrency qc cfg ∧ b ≠ [])
  ∧ ((chunkMessages (effectiveMaxConcurrency qc cfg) ms).flatten = ms)
  ∧ (processMessages cfg qc qi env now hrOf delOf delErrOf ms =
       (chunkMessages (effectiveMaxConcurrency qc cfg) ms).map
         (fun batch => (batch.map (fun m =>
           processMessage cfg qc qi env now m (hrOf m) (delOf m) (delErrOf m))).flatten)) := by
  refine ⟨?_, ?_, ?_, rfl⟩
  · exact chunksGo_length (effectiveMaxConcurrency qc cfg) hc ms.length ms le_rfl
  · exact chunksGo_sizes (effectiveMaxConcurrency qc cfg) hc ms.length ms le_rfl
  · exact chunksGo_flatten (effectiveMaxConcurrency qc cfg) hc ms.length ms le_rfl

/-- Witness for C8: a batch of 6 messages with concurrency limit 2 yields
exactly 3 sub-batches of at most 2 messages covering the batch in order
(the concurrency limit of `qcConc2` under the default config is 2, and
`(6 + 2 - 1) / 2 = 3`). -/
theorem batch_partition_witness :
    ((chunkMessages 2 msgs6).length = 3)
  ∧ (∀ b ∈ chunkMessages 2 msgs6, b.length ≤ 2 ∧ b ≠ [])
  ∧ ((chunkMessages 2 msgs6).flatten = msgs6) :=
  have h := batch_partition cfgEx qcConc2 qiEx envEx "T0"
    (fun _ => { success := true, error := none, result := none })
    (fun _ => true) (fun _ => "") msgs6 (by decide)
  ⟨h.1, h.2.1, h.2.2.1⟩

/-- C9 counterexample: a poll cycle whose receive call fails (messages
were available but the transport errored). The claim says the error is
caught, logged, and counted in the per-queue `PollerState.errorCount`;
in the code the client wrapper catches and logs the failure and returns
the empty list, so `pollQueue` treats the cycle as an empty receive: the
loop survives and the error is logged, but `errorCount` stays 0. -/
theorem receive_error_not_counted :
    pollQueue qcEx qiEx (some initialPollerState) 5 false "connection refused" [mAt1] [] none =
      (some { isPolling := true, messageCount := 0, errorCount := 0
              lastPollTime := some 5, lastError := none },
       [Action.logError
          "Failed to receive messages from http://localhost:4566/000000000000/orders: connection refused",
        Action.logDebug "No messages received from queue: orders"]) := by
  decide

/-- C9 (amended). For every poll cycle in which the receive call itself
fails, the error is caught inside the queue-client wrapper (which logs it
and returns the empty list) so the loop does not stop and the next
scheduled interval retries, but it is not counted in the per-queue
`PollerState.errorCount`: the cycle ends exactly like an empty receive,
with the state unchanged apart from `lastPollTime`. -/
theorem receive_error_caught_logged_uncounted
    (qc : QueueConfig) (qi : QueueInfo) (st : PollerState) (now : Nat)
    (recvErr : String) (available : List Message) (subTrace : List Action)
    (procExc : Option String)
    (hp : st.isPolling = true) :
    pollQueue qc qi (some st) now false recvErr available subTrace procExc =
      (some { st with lastPollTime := some now },
       [Action.logError ("Failed to receive messages from " ++ qi.queueUrl ++
          ": " ++ recvErr),
        Action.logDebug ("No messages received from queue: " ++ qc.queueName)]) := by
  simp [pollQueue, hp, receiveMessages]

/-- Witness for C9 (amended): the failing cycle of the counterexample,
reproduced through the amended theorem. -/
theorem receive_error_caught_logged_uncounted_witness :
    pollQueue qcEx qiEx (some initialPollerState) 5 false "connection refused" [mAt1] [] none =
      (some { initialPollerState with lastPollTime := some 5 },
       [Action.logError
          "Failed to receive messages from http://localhost:4566/000000000000/orders: connection refused",
        Action.logDebug "No messages received from queue: orders"]) :=
  receive_error_caught_logged_uncounted qcEx qiEx initialPollerState 5
    "connection refused" [mAt1] [] none (by decide)

/-- C5. The claim asserts a sanitization pass over provisioned queue
names (idempotent, character-restricted, with
`sanitize("queue.with.dots.and@symbols!") = "queue-with-dots-and-symbols"`
and a fixed fallback for all-invalid names), as the repository test
queue-manager-webhook.test.ts also demands. The `QueueManager` in src has
no such pass: `parseQueueResource` forwards `properties.QueueName`
verbatim and `createQueuesFromCloudFormation` provisions the raw names
`"queue.with.dots.and@symbols!"` and `"@#$%^&*()"` unchanged. -/
theorem queue_names_not_sanitized :
    ((parseQueueResource "TestQueue" resDotsName).map QueueResource.queueName =
       some "queue.with.dots.and@symbols!")
  ∧ (createQueuesFromCloudFormation [("TestQueue", resDotsName)] =
       ["queue.with.dots.and@symbols!"])
  ∧ ((parseQueueResource "FallbackQueue" resSymbolsName).map QueueResource.queueName =
       some "@#$%^&*()")
  ∧ (createQueuesFromCloudFormation [("FallbackQueue", resSymbolsName)] =
       ["@#$%^&*()"]) := by
  decide

/-- C6. The claim says redrive-target resolution succeeds on all three
input shapes without raising an error. The code handles the literal ARN
string (trailing segment becomes the DLQ name) and the missing/null
target (no DLQ wiring, queue still provisioned), but a symbolic
`Fn::GetAtt` reference makes `deadLetterTargetArn.split(':')` throw a
`TypeError`, the catch in `parseQueueResource` returns `null`, and the
whole queue resource is dropped: nothing is provisioned for it, contrary
to the claim and to test/queue-manager-webhook.test.ts. -/
theorem symbolic_redrive_target_drops_resource :
    ((parseQueueResource "TestQueue" resArnTarget).map QueueResource.dlqName =
       some (some "test-dlq"))
  ∧ (createQueuesFromCloudFormation [("TestQueue", resArnTarget)] =
       ["test-dlq", "test-queue"])
  ∧ (parseQueueResource "WebhookEventsQueue" resGetAttTarget = none)
  ∧ (createQueuesFromCloudFormation [("WebhookEventsQueue", resGetAttTarget)] = [])
  ∧ ((parseQueueResource "TestQueue2" resNullTarget).map QueueResource.dlqName =
       some none)
  ∧ (createQueuesFromCloudFormation [("TestQueue2", resNullTarget)] =
       ["test-queue-2"]) := by
  decide

/-- C10. For every heap and every allocated address of the internal
`pollerStates` map, `getPollerStates` returns a map equal in content to
the internal one but distinct from it, and any map mutation (`set`,
`delete`, `clear`) a caller applies to the returned map leaves the
content at the engine-internal address unchanged. -/
theorem poller_states_copy_isolated (h : MapHeap) (a : Nat) (ha : a < h.next) :
    ((getPollerStates h a).1 ≠ a)
  ∧ ((getPollerStates h a).2.store (getPollerStates h a).1 = h.store a)
  ∧ ((getPollerStates h a).2.store a = h.store a)
  ∧ (∀ op : MapOp,
       (applyMapOp (getPollerStates h a).2 (getPollerStates h a).1 op).store a =
         h.store a) := by
  have hne : a ≠ h.next := Nat.ne_of_lt ha
  refine ⟨?_, ?_, ?_, ?_⟩
  · simp [getPollerStates, newMapCopy]
    omega
  · simp [getPollerStates, newMapCopy]
  · simp [getPollerStates, newMapCopy, hne]
  · intro op
    simp [getPollerStates, newMapCopy, applyMapOp, hne]

/-- Witness for C10: a heap holding the engine map at address 0; the copy
lands at address 1, carries the same single entry, and a caller `set` on
the copy leaves address 0 untouched. -/
theorem poller_states_copy_isolated_witness :
    ((getPollerStates heapEx 0).1 ≠ 0)
  ∧ ((getPollerStates heapEx 0).2.store (getPollerStates heapEx 0).1 =
       heapEx.store 0)
  ∧ ((getPollerStates heapEx 0).2.store 0 = heapEx.store 0)
  ∧ ((applyMapOp (getPollerStates heapEx 0).2 (getPollerStates heapEx 0).1
        (MapOp.set "orders-handlers/order.main" 9)).store 0 = heapEx.store 0) :=
  have h := poller_states_copy_isolated heapEx 0 (by decide)
  ⟨h.1, h.2.1, h.2.2.1, h.2.2.2 (MapOp.set "orders-handlers/order.main" 9)⟩

end SOLS
